import Mathlib

/-!
Shallow embedding of the rendering core of the `raytracerchallenge` repository.

Scalars (`f64` in the source) are modelled as exact rationals; every call to
`f64::sqrt` in the source is threaded through an explicit function parameter
`sqrt : Scalar → Scalar`, so all definitions stay executable.  Mutable
`Vec<Intersection>` buffers are modelled by explicit state passing.  The
bounded mutual recursion `color_at → shade_hit → reflected/refracted →
color_at` is modelled in open-recursion style: each body takes the next
bounce's `color_at` as an explicit callback, and `colorAt` ties the knot by
structural recursion on the `remaining_recursion` budget, which is exactly
the decreasing quantity of the source.
-/

namespace Raytracer

/-- The machine scalar of the source (`f64`), modelled as an exact rational. -/
abbrev Scalar := ℚ

/-- `EPSILON` from `epsilon.rs`. -/
def EPSILON : Scalar := 1/10000

/-- `f64::abs`. -/
def sAbs (q : Scalar) : Scalar := if q < 0 then -q else q

/-- `EpsilonEqual::e_equals` for `f64` from `epsilon.rs`:
`(self - other).abs() < EPSILON`. -/
def eEquals (a b : Scalar) : Bool := decide (sAbs (a - b) < EPSILON)

/-- `Vector` from `tuple.rs`. -/
structure Vec3 where
  x : Scalar
  y : Scalar
  z : Scalar
deriving DecidableEq

/-- `Point` from `tuple.rs`. -/
structure Pt3 where
  x : Scalar
  y : Scalar
  z : Scalar
deriving DecidableEq

instance : Add Vec3 := ⟨fun a b => ⟨a.x + b.x, a.y + b.y, a.z + b.z⟩⟩

instance : Sub Vec3 := ⟨fun a b => ⟨a.x - b.x, a.y - b.y, a.z - b.z⟩⟩

instance : Neg Vec3 := ⟨fun a => ⟨-a.x, -a.y, -a.z⟩⟩

instance : HMul Vec3 Scalar Vec3 := ⟨fun a s => ⟨a.x * s, a.y * s, a.z * s⟩⟩

instance : HAdd Pt3 Vec3 Pt3 := ⟨fun p v => ⟨p.x + v.x, p.y + v.y, p.z + v.z⟩⟩

instance : HSub Pt3 Pt3 Vec3 := ⟨fun a b => ⟨a.x - b.x, a.y - b.y, a.z - b.z⟩⟩

instance : HSub Pt3 Vec3 Pt3 := ⟨fun p v => ⟨p.x - v.x, p.y - v.y, p.z - v.z⟩⟩

@[simp] theorem Vec3.add_def (a b : Vec3) :
    a + b = ⟨a.x + b.x, a.y + b.y, a.z + b.z⟩ := rfl

@[simp] theorem Vec3.sub_def (a b : Vec3) :
    a - b = ⟨a.x - b.x, a.y - b.y, a.z - b.z⟩ := rfl

@[simp] theorem Vec3.neg_def (a : Vec3) : -a = ⟨-a.x, -a.y, -a.z⟩ := rfl

@[simp] theorem Vec3.smul_def (a : Vec3) (s : Scalar) :
    a * s = ⟨a.x * s, a.y * s, a.z * s⟩ := rfl

@[simp] theorem Pt3.add_vec_def (p : Pt3) (v : Vec3) :
    p + v = ⟨p.x + v.x, p.y + v.y, p.z + v.z⟩ := rfl

@[simp] theorem Pt3.sub_pt_def (a b : Pt3) :
    a - b = (⟨a.x - b.x, a.y - b.y, a.z - b.z⟩ : Vec3) := rfl

@[simp] theorem Pt3.sub_vec_def (p : Pt3) (v : Vec3) :
    p - v = (⟨p.x - v.x, p.y - v.y, p.z - v.z⟩ : Pt3) := rfl

/-- `Vector::dot` from `tuple.rs`. -/
def Vec3.dot (a b : Vec3) : Scalar := a.x * b.x + a.y * b.y + a.z * b.z

/-- `Vector::magnitude` from `tuple.rs` (the `f64::sqrt` call is the
explicit `sqrt` parameter). -/
def Vec3.magnitude (sqrt : Scalar → Scalar) (a : Vec3) : Scalar :=
  sqrt (a.x ^ 2 + a.y ^ 2 + a.z ^ 2)

/-- `Vector::normalized` from `tuple.rs`. -/
def Vec3.normalized (sqrt : Scalar → Scalar) (a : Vec3) : Vec3 :=
  let m := a.magnitude sqrt
  ⟨a.x / m, a.y / m, a.z / m⟩

/-- `Vector::reflect` from `tuple.rs`: `*self - p * 2.0 * self.dot(p)`. -/
def Vec3.reflect (a p : Vec3) : Vec3 := a - p * (2 : Scalar) * a.dot p

/-- `Color` from `color.rs`. -/
structure Color where
  red : Scalar
  green : Scalar
  blue : Scalar
deriving DecidableEq

/-- The constant `BLACK` from `color.rs`. -/
def BLACK : Color := ⟨0, 0, 0⟩

instance : Add Color := ⟨fun a b => ⟨a.red + b.red, a.green + b.green, a.blue + b.blue⟩⟩

instance : Mul Color := ⟨fun a b => ⟨a.red * b.red, a.green * b.green, a.blue * b.blue⟩⟩

instance : HMul Color Scalar Color := ⟨fun c s => ⟨c.red * s, c.green * s, c.blue * s⟩⟩

@[simp] theorem Color.addc_def (a b : Color) :
    a + b = ⟨a.red + b.red, a.green + b.green, a.blue + b.blue⟩ := rfl

@[simp] theorem Color.mul_def (a b : Color) :
    a * b = ⟨a.red * b.red, a.green * b.green, a.blue * b.blue⟩ := rfl

@[simp] theorem Color.smulc_def (c : Color) (s : Scalar) :
    c * s = ⟨c.red * s, c.green * s, c.blue * s⟩ := rfl

/-- `Mat4` from `matrix.rs`. -/
abbrev Mat4 := Matrix (Fin 4) (Fin 4) Scalar

/-- `IDENTITY_MATRIX_4` from `matrix.rs`. -/
def IDENTITY_MATRIX_4 : Mat4 :=
  !![1, 0, 0, 0; 0, 1, 0, 0; 0, 0, 1, 0; 0, 0, 0, 1]

/-- `Matrix::transpose` from `matrix.rs` (`m[x][y] = self[y][x]`). -/
def transposeM (m : Mat4) : Mat4 := fun i j => m j i

/-- `PartialEq for Matrix` from `matrix.rs`: elementwise epsilon equality. -/
def matEqB (a b : Mat4) : Bool :=
  (List.finRange 4).all fun i => (List.finRange 4).all fun j => eEquals (a i j) (b i j)

/-- `Mul<Point> for Mat4` from `matrix.rs` (homogeneous point, w = 1). -/
def mulPoint (m : Mat4) (p : Pt3) : Pt3 :=
  ⟨m 0 0 * p.x + m 0 1 * p.y + m 0 2 * p.z + m 0 3,
   m 1 0 * p.x + m 1 1 * p.y + m 1 2 * p.z + m 1 3,
   m 2 0 * p.x + m 2 1 * p.y + m 2 2 * p.z + m 2 3⟩

/-- `Mul<Vector> for Mat4` from `matrix.rs` (homogeneous vector, w = 0). -/
def mulVec (m : Mat4) (v : Vec3) : Vec3 :=
  ⟨m 0 0 * v.x + m 0 1 * v.y + m 0 2 * v.z,
   m 1 0 * v.x + m 1 1 * v.y + m 1 2 * v.z,
   m 2 0 * v.x + m 2 1 * v.y + m 2 2 * v.z⟩

/-- `Mat4::new_translation` from `matrix.rs`. -/
def newTranslation (x y z : Scalar) : Mat4 :=
  !![1, 0, 0, x; 0, 1, 0, y; 0, 0, 1, z; 0, 0, 0, 1]

/-- `Mat4::new_scaling` from `matrix.rs`. -/
def newScaling (x y z : Scalar) : Mat4 :=
  !![x, 0, 0, 0; 0, y, 0, 0; 0, 0, z, 0; 0, 0, 0, 1]

/-- `Ray` from `ray.rs`. -/
structure Ray where
  origin : Pt3
  direction : Vec3

/-- `Ray::position` from `ray.rs`: `origin + direction * t`. -/
def Ray.position (r : Ray) (t : Scalar) : Pt3 := r.origin + r.direction * t

/-- `Ray::transformed` from `ray.rs`. -/
def Ray.transformed (r : Ray) (m : Mat4) : Ray :=
  ⟨mulPoint m r.origin, mulVec m r.direction⟩

/-- `Pattern` from `pattern.rs`.  The `Rc<dyn Fn>` pattern function is
modelled as a Lean function together with a numeric identifier `fnId`
standing for the function pointer address that the source's
`PartialEq for Pattern` compares. -/
structure Pattern where
  fnId : Nat
  fn : Pt3 → Color
  transformationMatrix : Mat4
  inverseTransformationMatrix : Mat4

/-- `PartialEq for Pattern` from `pattern.rs`: function address plus both
matrices. -/
def patternEqB (a b : Pattern) : Bool :=
  decide (a.fnId = b.fnId) && matEqB a.transformationMatrix b.transformationMatrix
    && matEqB a.inverseTransformationMatrix b.inverseTransformationMatrix

/-- `ColorType` from `material.rs`. -/
inductive ColorType where
  | color (c : Color)
  | pat (p : Pattern)

/-- `PartialEq for Color` from `color.rs`: componentwise epsilon equality. -/
def colorEqB (a b : Color) : Bool :=
  eEquals a.red b.red && eEquals a.green b.green && eEquals a.blue b.blue

/-- Derived `PartialEq for ColorType` from `material.rs`. -/
def colorTypeEqB : ColorType → ColorType → Bool
  | .color a, .color b => colorEqB a b
  | .pat a, .pat b => patternEqB a b
  | _, _ => false

/-- `Material` from `material.rs`.  `Shininess` is the default `i32`
(feature `shininess_as_float` disabled). -/
structure Material where
  color : ColorType
  ambient : Scalar
  diffuse : Scalar
  specular : Scalar
  shininess : Int
  reflective : Scalar
  transparency : Scalar
  refractiveIndex : Scalar

/-- `PartialEq for Material` from `material.rs`. -/
def materialEqB (a b : Material) : Bool :=
  colorTypeEqB a.color b.color && eEquals a.ambient b.ambient
    && eEquals a.diffuse b.diffuse && eEquals a.specular b.specular
    && decide (a.shininess = b.shininess)

/-- `Material::default` from `material.rs`. -/
def Material.default : Material :=
  ⟨.color ⟨1, 1, 1⟩, 1/10, 9/10, 9/10, 200, 0, 0, 1⟩

/-- `Material::new_glass` from `material.rs`. -/
def Material.newGlass : Material :=
  { Material.default with transparency := 1, refractiveIndex := 3/2 }

/-- `PointLight` from `light.rs`. -/
structure PointLight where
  position : Pt3
  intensity : Color

/-- The closed set of primitives (`Sphere` from `shapes/sphere.rs`, `Plane`
from `shapes/plane.rs`).  Each carries its transformation matrix, the cached
inverted matrix, and its material, exactly as the source structs do. -/
inductive Shape where
  | sphere (tm itm : Mat4) (material : Material)
  | plane (tm itm : Mat4) (material : Material)

/-- `Shape::material`. -/
def Shape.material : Shape → Material
  | .sphere _ _ m => m
  | .plane _ _ m => m

/-- `Shape::transformation_matrix`. -/
def Shape.transformationMatrix : Shape → Mat4
  | .sphere tm _ _ => tm
  | .plane tm _ _ => tm

/-- `Shape::inverse_transformation_matrix` (the cached inverted matrix). -/
def Shape.inverseTransformationMatrix : Shape → Mat4
  | .sphere _ itm _ => itm
  | .plane _ itm _ => itm

/-- `PartialEq for dyn Shape` from `shapes/shape.rs`: downcast to the
concrete type (different primitive kinds are never equal) and then the
derived structural `PartialEq` of the concrete struct, which compares the
transformation matrix, the cached inverse, and the material. -/
def shapeEqB : Shape → Shape → Bool
  | .sphere tm itm m, .sphere tm' itm' m' =>
      matEqB tm tm' && matEqB itm itm' && materialEqB m m'
  | .plane tm itm m, .plane tm' itm' m' =>
      matEqB tm tm' && matEqB itm itm' && materialEqB m m'
  | _, _ => false

/-- `Intersection` from `intersection.rs`. -/
structure Intersection where
  t : Scalar
  object : Shape

/-- Derived `PartialEq for Intersection` from `intersection.rs`: exact `f64`
equality on `t` and the `dyn Shape` equality on the object. -/
def intersectionEqB (a b : Intersection) : Bool :=
  decide (a.t = b.t) && shapeEqB a.object b.object

/-- The loop body shared by `hit` and `consuming_hit` in `intersection.rs`:
keep the intersection with the lowest non-negative `t` seen so far,
replacing only on a strictly smaller `t`. -/
def hitFold : Option Intersection → List Intersection → Option Intersection
  | acc, [] => acc
  | none, i :: rest => if i.t < 0 then hitFold none rest else hitFold (some i) rest
  | some l, i :: rest =>
    if i.t < 0 then hitFold (some l) rest
    else if i.t < l.t then hitFold (some i) rest else hitFold (some l) rest

/-- `hit` from `intersection.rs`: iterates the vector front to back. -/
def hit (xs : List Intersection) : Option Intersection := hitFold none xs

/-- `consuming_hit` from `intersection.rs`: `Vec::pop` empties the vector
back to front, so the scan runs over the reversed list and the buffer is
left empty. -/
def consumingHit (xs : List Intersection) : Option Intersection × List Intersection :=
  (hitFold none xs.reverse, [])

/-- The reading of `containers.last()` in `compute_n1_n2`: the refractive
index of the stack top, or `1.0` when the stack is empty. -/
def stackIndex (containers : List Shape) : Scalar :=
  match containers.getLast? with
  | some s => s.material.refractiveIndex
  | none => 1

/-- One toggle step of the container stack in `compute_n1_n2`:
`retain` removes every occurrence when the object is contained, `push`
appends it otherwise. -/
def toggleContainers (containers : List Shape) (obj : Shape) : List Shape :=
  if containers.any (fun c => shapeEqB c obj) then
    containers.filter (fun c => !(shapeEqB c obj))
  else
    containers ++ [obj]

/-- The loop of `Intersection::compute_n1_n2` from `intersection.rs`,
carrying the container stack and the mutable `n1`/`n2` (both initialised to
`0.0`); the loop breaks right after the chosen intersection is processed. -/
def computeN1N2Go (self : Intersection) (containers : List Shape) (n1 n2 : Scalar) :
    List Intersection → Scalar × Scalar
  | [] => (n1, n2)
  | x :: rest =>
    let isSelf := intersectionEqB x self
    let n1' := if isSelf then stackIndex containers else n1
    let containers' := toggleContainers containers x.object
    if isSelf then
      (n1', stackIndex containers')
    else
      computeN1N2Go self containers' n1' n2 rest

/-- `Intersection::compute_n1_n2` from `intersection.rs`. -/
def computeN1N2 (self : Intersection) (xs : List Intersection) : Scalar × Scalar :=
  computeN1N2Go self [] 0 0 xs

/-- `sphere_to_ray` of `Sphere::local_intersect`: `ray.origin - (0,0,0)`. -/
def sphereToRay (ray : Ray) : Vec3 := ray.origin - (⟨0, 0, 0⟩ : Pt3)

/-- Coefficient `a` of the sphere quadratic: `direction ⬝ direction`. -/
def sphereCoeffA (ray : Ray) : Scalar := ray.direction.dot ray.direction

/-- Coefficient `b` of the sphere quadratic: `2 (direction ⬝ sphere_to_ray)`. -/
def sphereCoeffB (ray : Ray) : Scalar := 2 * ray.direction.dot (sphereToRay ray)

/-- Coefficient `c` of the sphere quadratic:
`sphere_to_ray ⬝ sphere_to_ray - 1`. -/
def sphereCoeffC (ray : Ray) : Scalar := (sphereToRay ray).dot (sphereToRay ray) - 1

/-- The discriminant `b² - 4ac` of `Sphere::local_intersect`. -/
def sphereDiscriminant (ray : Ray) : Scalar :=
  sphereCoeffB ray ^ 2 - 4 * sphereCoeffA ray * sphereCoeffC ray

/-- `Sphere::local_intersect` from `shapes/sphere.rs`: solves the quadratic
and pushes both roots unless the discriminant is negative. -/
def sphereLocalIntersect (sqrt : Scalar → Scalar) (s : Shape) (ray : Ray)
    (xs : List Intersection) : List Intersection :=
  if sphereDiscriminant ray < 0 then xs
  else
    let t1 := (-sphereCoeffB ray - sqrt (sphereDiscriminant ray)) / (2 * sphereCoeffA ray)
    let t2 := (-sphereCoeffB ray + sqrt (sphereDiscriminant ray)) / (2 * sphereCoeffA ray)
    xs ++ [⟨t1, s⟩, ⟨t2, s⟩]

/-- `Plane::local_intersect` from `shapes/plane.rs`. -/
def planeLocalIntersect (s : Shape) (ray : Ray) (xs : List Intersection) :
    List Intersection :=
  if sAbs ray.direction.y < EPSILON then xs
  else xs ++ [⟨(-ray.origin.y) / ray.direction.y, s⟩]

/-- `Shape::local_intersect` dispatch. -/
def Shape.localIntersect (sqrt : Scalar → Scalar) (s : Shape) (ray : Ray)
    (xs : List Intersection) : List Intersection :=
  match s with
  | .sphere _ _ _ => sphereLocalIntersect sqrt s ray xs
  | .plane _ _ _ => planeLocalIntersect s ray xs

/-- `Shape::intersect` from `shapes/shape.rs`: transform the ray into object
space with the cached inverse, then delegate to the local rule. -/
def Shape.intersect (sqrt : Scalar → Scalar) (s : Shape) (ray : Ray)
    (xs : List Intersection) : List Intersection :=
  s.localIntersect sqrt (ray.transformed s.inverseTransformationMatrix) xs

/-- `Shape::local_normal_at`: sphere per `shapes/sphere.rs` (vector from the
origin, normalised), plane per `shapes/plane.rs` (constant `(0,1,0)`). -/
def Shape.localNormalAt (sqrt : Scalar → Scalar) (s : Shape) (p : Pt3) : Vec3 :=
  match s with
  | .sphere _ _ _ => Vec3.normalized sqrt (p - (⟨0, 0, 0⟩ : Pt3))
  | .plane _ _ _ => ⟨0, 1, 0⟩

/-- `Shape::normal_at` from `shapes/shape.rs`: to object space via the
cached inverse, local normal, back with the transposed inverse,
re-normalised. -/
def Shape.normalAt (sqrt : Scalar → Scalar) (s : Shape) (p : Pt3) : Vec3 :=
  let localPoint := mulPoint s.inverseTransformationMatrix p
  let localNormal := s.localNormalAt sqrt localPoint
  let worldNormal := mulVec (transposeM s.inverseTransformationMatrix) localNormal
  worldNormal.normalized sqrt

/-- `PreparedComputations` from `intersection.rs`. -/
structure PreparedComputations where
  t : Scalar
  object : Shape
  point : Pt3
  overPoint : Pt3
  underPoint : Pt3
  eyev : Vec3
  normalv : Vec3
  inside : Bool
  reflectv : Vec3
  n1 : Scalar
  n2 : Scalar

/-- `Intersection::prepare_computations` from `intersection.rs`. -/
def prepareComputations (sqrt : Scalar → Scalar) (self : Intersection) (r : Ray)
    (xs : List Intersection) : PreparedComputations :=
  let point := r.position self.t
  let normal := self.object.normalAt sqrt point
  let eyev := -r.direction
  let insideNormal : Bool × Vec3 :=
    if normal.dot eyev < 0 then (true, -normal) else (false, normal)
  let inside := insideNormal.1
  let normal := insideNormal.2
  let overPoint := point + normal * EPSILON
  let underPoint := point - normal * EPSILON
  let reflectv := r.direction.reflect normal
  let n12 := computeN1N2 self xs
  ⟨self.t, self.object, point, overPoint, underPoint, eyev, normal, inside,
    reflectv, n12.1, n12.2⟩

/-- `Pattern::apply_pattern_world_space` from `pattern.rs`. -/
def applyPatternWorldSpace (p : Pattern) (object : Shape) (point : Pt3) : Color :=
  let pointObjectSpace := mulPoint object.inverseTransformationMatrix point
  let pointPatternSpace := mulPoint p.inverseTransformationMatrix pointObjectSpace
  p.fn pointPatternSpace

/-- The color source of `Material::lighting`: the plain color, or the
pattern applied in world space. -/
def materialColorAt (m : Material) (object : Shape) (point : Pt3) : Color :=
  match m.color with
  | .color c => c
  | .pat p => applyPatternWorldSpace p object point

/-- `Material::lighting` from `material.rs` (with `compute_specular_factor`
being `powi`, i.e. an integer power). -/
def lighting (sqrt : Scalar → Scalar) (m : Material) (light : PointLight)
    (object : Shape) (point : Pt3) (eyev normalv : Vec3)
    (inShadowFlag useAmbient : Bool) : Color :=
  let color := materialColorAt m object point
  let effectiveColor := color * light.intensity
  let lightv := Vec3.normalized sqrt (light.position - point)
  let ambient := if useAmbient then effectiveColor * m.ambient else BLACK
  if inShadowFlag then ambient
  else
    let lightDotNormal := lightv.dot normalv
    let ds : Color × Color :=
      if lightDotNormal < 0 then (BLACK, BLACK)
      else
        let diffuse := effectiveColor * m.diffuse * lightDotNormal
        let reflectv := (-lightv).reflect normalv
        let reflectDotEye := reflectv.dot eyev
        let specular :=
          if reflectDotEye ≤ 0 then BLACK
          else light.intensity * m.specular * (reflectDotEye ^ m.shininess)
        (diffuse, specular)
    ambient + ds.1 + ds.2

/-- `Shape::render_at` from `shapes/shape.rs`: delegates to
`Material::lighting` at the intersection's `over_point`. -/
def renderAt (sqrt : Scalar → Scalar) (s : Shape) (comps : PreparedComputations)
    (light : PointLight) (inShadowFlag ambient : Bool) : Color :=
  lighting sqrt s.material light s comps.overPoint comps.eyev comps.normalv
    inShadowFlag ambient

/-- `World` from `world.rs`. -/
structure World where
  objects : List Shape
  lights : List PointLight

/-- The stable ascending sort of `World::intersect`
(`sort_by(partial_cmp on t)`), modelled as a stable insertion sort, which
produces the same list as any stable ascending sort. -/
def insertByT (i : Intersection) : List Intersection → List Intersection
  | [] => [i]
  | j :: rest => if i.t ≤ j.t then i :: j :: rest else j :: insertByT i rest

/-- Stable ascending sort on `t` (see `insertByT`). -/
def sortByT : List Intersection → List Intersection
  | [] => []
  | i :: rest => insertByT i (sortByT rest)

/-- `World::intersect` from `world.rs`: append every object's intersections
to the buffer, then sort the whole buffer ascending by `t`. -/
def worldIntersect (sqrt : Scalar → Scalar) (w : World) (r : Ray)
    (buf : List Intersection) : List Intersection :=
  sortByT (w.objects.foldl (fun acc o => o.intersect sqrt r acc) buf)

/-- `World::in_shadow` from `world.rs`.  The returned buffer is the state of
the `intersections` vector after the call (`consuming_hit` empties it). -/
def inShadow (sqrt : Scalar → Scalar) (w : World) (light : PointLight) (point : Pt3)
    (buf : List Intersection) : Bool × List Intersection :=
  let v := light.position - point
  let distance := v.magnitude sqrt
  let direction := v.normalized sqrt
  let r : Ray := ⟨point, direction⟩
  let ch := consumingHit (worldIntersect sqrt w r buf)
  (match ch.1 with
   | some i => decide (i.t < distance)
   | none => false, ch.2)

/-- The `for light in self.lights` loop of `World::shade_hit`: accumulates
the surface color, threads the intersection buffer through each shadow
test, and clears the `ambient` flag after the first light. -/
def surfaceLoop (sqrt : Scalar → Scalar) (w : World) (comps : PreparedComputations) :
    List PointLight → Bool → Color → List Intersection → Color × List Intersection
  | [], _, surface, buf => (surface, buf)
  | light :: rest, ambient, surface, buf =>
    let sh := inShadow sqrt w light comps.overPoint buf
    surfaceLoop sqrt w comps rest false
      (surface + renderAt sqrt comps.object comps light sh.1 ambient) sh.2

/-- The body of `World::reflected_color_at` from `world.rs`.  `prev`
stands for the recursive call `color_at(reflect_ray, &mut Vec::new(),
remaining_recursion - 1)`; it is consulted only when `remaining > 0`, after
the budget check. -/
def reflectedColorAtT (prev : Ray → Color × List Intersection)
    (comps : PreparedComputations) : Nat → Color
  | 0 => ⟨0, 0, 0⟩
  | _ + 1 =>
    if eEquals comps.object.material.reflective 0 then ⟨0, 0, 0⟩
    else
      let reflectRay : Ray := ⟨comps.overPoint, comps.reflectv⟩
      (prev reflectRay).1 * comps.object.material.reflective

/-- The body of `World::refracted_color_at` from `world.rs` (see
`reflectedColorAtT` for `prev`). -/
def refractedColorAtT (sqrt : Scalar → Scalar)
    (prev : Ray → Color × List Intersection)
    (comps : PreparedComputations) : Nat → Color
  | 0 => BLACK
  | _ + 1 =>
    if comps.object.material.transparency = 0 then BLACK
    else
      let ratioN := comps.n1 / comps.n2
      let cosI := comps.eyev.dot comps.normalv
      let sin2T := ratioN ^ 2 * (1 - cosI ^ 2)
      if 1 < sin2T then BLACK
      else
        let cosT := sqrt (1 - sin2T)
        let direction :=
          comps.normalv * (ratioN * cosI - cosT) - comps.eyev * ratioN
        let refractRay : Ray := ⟨comps.underPoint, direction⟩
        (prev refractRay).1 * comps.object.material.transparency

/-- The body of `World::shade_hit` from `world.rs`: the surface loop over
the lights plus the reflected and refracted contributions. -/
def shadeHitT (sqrt : Scalar → Scalar) (w : World)
    (prev : Ray → Color × List Intersection) (comps : PreparedComputations)
    (buf : List Intersection) (remaining : Nat) : Color × List Intersection :=
  let surface := surfaceLoop sqrt w comps w.lights true BLACK buf
  (surface.1 + reflectedColorAtT prev comps remaining +
      refractedColorAtT sqrt prev comps remaining,
    surface.2)

/-- The body of `World::color_at` from `world.rs`: intersect, sort, select
the hit; black on a miss, otherwise clear the buffer and shade. -/
def colorAtT (sqrt : Scalar → Scalar) (w : World)
    (prev : Ray → Color × List Intersection) (r : Ray)
    (buf : List Intersection) (remaining : Nat) : Color × List Intersection :=
  let xs := worldIntersect sqrt w r buf
  match hit xs with
  | some h => shadeHitT sqrt w prev (prepareComputations sqrt h r xs) [] remaining
  | none => (BLACK, xs)

/-- `World::color_at` from `world.rs`, with the bounded mutual recursion
`color_at → shade_hit → reflected/refracted_color_at → color_at` unrolled
structurally over the `remaining_recursion` budget: every bounce runs
`color_at` on a fresh buffer with budget `n`; at budget 0 the bounce
callback is a dummy that the budget-0 short-circuits of both bounce
branches never consult.  Returns the color and the final state of the
`intersections` buffer. -/
def colorAt (sqrt : Scalar → Scalar) (w : World) :
    Ray → List Intersection → Nat → Color × List Intersection
  | r, buf, 0 => colorAtT sqrt w (fun _ => (BLACK, [])) r buf 0
  | r, buf, n + 1 => colorAtT sqrt w (fun r2 => colorAt sqrt w r2 [] n) r buf (n + 1)

/-- The bounce callback `World::shade_hit` hands to its two recursive
branches at budget `n`: `color_at` on a fresh buffer with budget `n - 1`
(a never-consulted dummy at budget 0). -/
def prevFn (sqrt : Scalar → Scalar) (w : World) :
    Nat → Ray → Color × List Intersection
  | 0 => fun _ => (BLACK, [])
  | n + 1 => fun r => colorAt sqrt w r [] n

/-- `World::shade_hit` from `world.rs`. -/
def shadeHit (sqrt : Scalar → Scalar) (w : World) (comps : PreparedComputations)
    (buf : List Intersection) (remaining : Nat) : Color × List Intersection :=
  shadeHitT sqrt w (prevFn sqrt w remaining) comps buf remaining

/-- `World::reflected_color_at` from `world.rs`. -/
def reflectedColorAt (sqrt : Scalar → Scalar) (w : World)
    (comps : PreparedComputations) (remaining : Nat) : Color :=
  reflectedColorAtT (prevFn sqrt w remaining) comps remaining

/-- `World::refracted_color_at` from `world.rs`. -/
def refractedColorAt (sqrt : Scalar → Scalar) (w : World)
    (comps : PreparedComputations) (remaining : Nat) : Color :=
  refractedColorAtT sqrt (prevFn sqrt w remaining) comps remaining

theorem colorAt_eq_T (sqrt : Scalar → Scalar) (w : World) (r : Ray)
    (buf : List Intersection) (n : Nat) :
    colorAt sqrt w r buf n = colorAtT sqrt w (prevFn sqrt w n) r buf n := by
  cases n <;> rfl

/-- Bounce-instrumented variant of `reflected_color_at`: the recursive
`color_at` call of the next bounce is the explicit `recur` argument. -/
def reflectedColorAtGo (recur : Ray → Nat → Option (Color × List Intersection))
    (comps : PreparedComputations) : Nat → Option Color
  | 0 => some ⟨0, 0, 0⟩
  | m + 1 =>
    if eEquals comps.object.material.reflective 0 then some ⟨0, 0, 0⟩
    else
      (recur ⟨comps.overPoint, comps.reflectv⟩ m).map
        (fun p => p.1 * comps.object.material.reflective)

/-- Bounce-instrumented variant of `refracted_color_at` (see
`reflectedColorAtGo`). -/
def refractedColorAtGo (sqrt : Scalar → Scalar)
    (recur : Ray → Nat → Option (Color × List Intersection))
    (comps : PreparedComputations) : Nat → Option Color
  | 0 => some BLACK
  | m + 1 =>
    if comps.object.material.transparency = 0 then some BLACK
    else
      let ratioN := comps.n1 / comps.n2
      let cosI := comps.eyev.dot comps.normalv
      let sin2T := ratioN ^ 2 * (1 - cosI ^ 2)
      if 1 < sin2T then some BLACK
      else
        let cosT := sqrt (1 - sin2T)
        let direction :=
          comps.normalv * (ratioN * cosI - cosT) - comps.eyev * ratioN
        (recur ⟨comps.underPoint, direction⟩ m).map
          (fun p => p.1 * comps.object.material.transparency)

/-- Bounce-instrumented variant of `shade_hit` (see `reflectedColorAtGo`):
`none` when either recursive branch ran out of bounce gas. -/
def shadeHitGo (sqrt : Scalar → Scalar) (w : World)
    (recur : Ray → Nat → Option (Color × List Intersection))
    (comps : PreparedComputations) (buf : List Intersection) (remaining : Nat) :
    Option (Color × List Intersection) :=
  match reflectedColorAtGo recur comps remaining,
      refractedColorAtGo sqrt recur comps remaining with
  | some reflected, some refracted =>
      let surface := surfaceLoop sqrt w comps w.lights true BLACK buf
      some (surface.1 + reflected + refracted, surface.2)
  | _, _ => none

/-- Bounce-instrumented variant of `color_at` (see `reflectedColorAtGo`). -/
def colorAtGo (sqrt : Scalar → Scalar) (w : World)
    (recur : Ray → Nat → Option (Color × List Intersection))
    (r : Ray) (buf : List Intersection) (remaining : Nat) :
    Option (Color × List Intersection) :=
  let xs := worldIntersect sqrt w r buf
  match hit xs with
  | some h => shadeHitGo sqrt w recur (prepareComputations sqrt h r xs) [] remaining
  | none => some (BLACK, xs)

/-- Gas-instrumented `color_at`: `gas` bounds the depth of nested
`color_at` activations, consumed on every reflective or refractive bounce
independently of the `remaining` budget; `none` means the gas ran out.
Used to state that the recursion depth of `World::color_at` is bounded by
the recursion budget. -/
def colorAtG (sqrt : Scalar → Scalar) (w : World) :
    Nat → Ray → List Intersection → Nat → Option (Color × List Intersection)
  | 0 => colorAtGo sqrt w (fun _ _ => none)
  | g + 1 => colorAtGo sqrt w (fun r m => colorAtG sqrt w g r [] m)

/-- A concrete stand-in for `f64::sqrt`, exact on the discriminant values
that appear in the concrete test scenes. -/
def sqrtEx : Scalar → Scalar := fun q => if q = 4 then 2 else 0

/-- `Sphere::default` from `shapes/sphere.rs`. -/
def defaultSphere : Shape :=
  .sphere IDENTITY_MATRIX_4 IDENTITY_MATRIX_4 Material.default

/-- Outer glass sphere `a` of the `refraction_intersections` scene from
`intersection.rs`: glass, scaled by 2, refractive index 1.5 (the cached
inverse of the scaling is supplied directly). -/
def glassSphereA : Shape :=
  .sphere (newScaling 2 2 2) (newScaling (1/2) (1/2) (1/2))
    { Material.newGlass with refractiveIndex := 3/2 }

/-- Middle glass sphere `b`: translated by `(0,0,-0.25)`, index 2.0. -/
def glassSphereB : Shape :=
  .sphere (newTranslation 0 0 (-(1/4))) (newTranslation 0 0 (1/4))
    { Material.newGlass with refractiveIndex := 2 }

/-- Inner glass sphere `c`: translated by `(0,0,0.25)`, index 2.5. -/
def glassSphereC : Shape :=
  .sphere (newTranslation 0 0 (1/4)) (newTranslation 0 0 (-(1/4)))
    { Material.newGlass with refractiveIndex := 5/2 }

/-- The six sorted intersections of the `refraction_intersections` scene. -/
def refractionXs : List Intersection :=
  [⟨2, glassSphereA⟩, ⟨11/4, glassSphereB⟩, ⟨13/4, glassSphereC⟩,
   ⟨19/4, glassSphereB⟩, ⟨21/4, glassSphereC⟩, ⟨6, glassSphereA⟩]

/-- A fully reflective plane translated along y (the `infinite_recursion`
scene of `world.rs`). -/
def reflectivePlane (y : Scalar) : Shape :=
  .plane (newTranslation 0 y 0) (newTranslation 0 (-y) 0)
    { Material.default with reflective := 1 }

/-- The two mutually reflective infinite planes of the `infinite_recursion`
test in `world.rs`, with a light at the origin. -/
def twoPlanesWorld : World :=
  ⟨[reflectivePlane (-1), reflectivePlane 1],
   [⟨⟨0, 0, 0⟩, ⟨1, 1, 1⟩⟩]⟩

theorem hitFold_eq_none_iff :
    ∀ (l : List Intersection) (acc : Option Intersection),
      hitFold acc l = none ↔ acc = none ∧ ∀ i ∈ l, i.t < 0
  | [], acc => by simp [hitFold]
  | i :: rest, none => by
    rcases lt_or_le i.t 0 with hi | hi
    · rw [hitFold, if_pos hi, hitFold_eq_none_iff rest none]
      constructor
      · rintro ⟨-, h2⟩
        refine ⟨rfl, ?_⟩
        intro j hj
        rcases List.mem_cons.mp hj with rfl | hj
        · exact hi
        · exact h2 j hj
      · rintro ⟨-, h2⟩
        exact ⟨rfl, fun j hj => h2 j (List.mem_cons_of_mem _ hj)⟩
    · rw [hitFold, if_neg (not_lt.mpr hi), hitFold_eq_none_iff rest (some i)]
      constructor
      · rintro ⟨h, -⟩
        cases h
      · rintro ⟨-, h2⟩
        exact absurd (h2 i (List.mem_cons_self i rest)) (not_lt.mpr hi)
  | i :: rest, some l0 => by
    rcases lt_or_le i.t 0 with hi | hi
    · rw [hitFold, if_pos hi, hitFold_eq_none_iff rest (some l0)]
      constructor
      · rintro ⟨h, -⟩
        cases h
      · rintro ⟨h, -⟩
        cases h
    · rw [hitFold, if_neg (not_lt.mpr hi)]
      by_cases hil : i.t < l0.t
      · rw [if_pos hil, hitFold_eq_none_iff rest (some i)]
        constructor
        · rintro ⟨h, -⟩
          cases h
        · rintro ⟨h, -⟩
          cases h
      · rw [if_neg hil, hitFold_eq_none_iff rest (some l0)]
        constructor
        · rintro ⟨h, -⟩
          cases h
        · rintro ⟨h, -⟩
          cases h

theorem hitFold_le_acc :
    ∀ (l : List Intersection) (a j : Intersection),
      hitFold (some a) l = some j → j.t ≤ a.t
  | [], a, j => by
    intro h
    rw [hitFold] at h
    cases h
    exact le_refl _
  | i :: rest, a, j => by
    intro h
    rw [hitFold] at h
    by_cases hi : i.t < 0
    · rw [if_pos hi] at h
      exact hitFold_le_acc rest a j h
    · rw [if_neg hi] at h
      by_cases hil : i.t < a.t
      · rw [if_pos hil] at h
        exact le_of_lt (lt_of_le_of_lt (hitFold_le_acc rest i j h) hil)
      · rw [if_neg hil] at h
        exact hitFold_le_acc rest a j h

theorem hitFold_min :
    ∀ (l : List Intersection) (acc : Option Intersection) (j : Intersection),
      hitFold acc l = some j → ∀ i ∈ l, 0 ≤ i.t → j.t ≤ i.t
  | [], acc, j => by
    intro _ i hi
    cases hi
  | i :: rest, none, j => by
    intro h i' hi' hnn
    rw [hitFold] at h
    by_cases hi : i.t < 0
    · rw [if_pos hi] at h
      rcases List.mem_cons.mp hi' with rfl | hmem
      · exact absurd hnn (not_le.mpr hi)
      · exact hitFold_min rest none j h i' hmem hnn
    · rw [if_neg hi] at h
      rcases List.mem_cons.mp hi' with rfl | hmem
      · exact hitFold_le_acc rest i' j h
      · exact hitFold_min rest (some i) j h i' hmem hnn
  | i :: rest, some l0, j => by
    intro h i' hi' hnn
    rw [hitFold] at h
    by_cases hi : i.t < 0
    · rw [if_pos hi] at h
      rcases List.mem_cons.mp hi' with rfl | hmem
      · exact absurd hnn (not_le.mpr hi)
      · exact hitFold_min rest (some l0) j h i' hmem hnn
    · rw [if_neg hi] at h
      by_cases hil : i.t < l0.t
      · rw [if_pos hil] at h
        rcases List.mem_cons.mp hi' with rfl | hmem
        · exact hitFold_le_acc rest i' j h
        · exact hitFold_min rest (some i) j h i' hmem hnn
      · rw [if_neg hil] at h
        rcases List.mem_cons.mp hi' with rfl | hmem
        · exact le_trans (hitFold_le_acc rest l0 j h) (not_lt.mp hil)
        · exact hitFold_min rest (some l0) j h i' hmem hnn

theorem hitFold_mem_nonneg :
    ∀ (l : List Intersection) (acc : Option Intersection) (j : Intersection),
      hitFold acc l = some j → acc = some j ∨ (j ∈ l ∧ 0 ≤ j.t)
  | [], acc, j => by
    intro h
    rw [hitFold] at h
    exact Or.inl h
  | i :: rest, none, j => by
    intro h
    rw [hitFold] at h
    by_cases hi : i.t < 0
    · rw [if_pos hi] at h
      rcases hitFold_mem_nonneg rest none j h with h' | h'
      · cases h'
      · exact Or.inr ⟨List.mem_cons_of_mem _ h'.1, h'.2⟩
    · rw [if_neg hi] at h
      rcases hitFold_mem_nonneg rest (some i) j h with h' | h'
      · cases h'
        exact Or.inr ⟨List.mem_cons_self i rest, not_lt.mp hi⟩
      · exact Or.inr ⟨List.mem_cons_of_mem _ h'.1, h'.2⟩
  | i :: rest, some l0, j => by
    intro h
    rw [hitFold] at h
    by_cases hi : i.t < 0
    · rw [if_pos hi] at h
      rcases hitFold_mem_nonneg rest (some l0) j h with h' | h'
      · exact Or.inl h'
      · exact Or.inr ⟨List.mem_cons_of_mem _ h'.1, h'.2⟩
    · rw [if_neg hi] at h
      by_cases hil : i.t < l0.t
      · rw [if_pos hil] at h
        rcases hitFold_mem_nonneg rest (some i) j h with h' | h'
        · cases h'
          exact Or.inr ⟨List.mem_cons_self i rest, not_lt.mp hi⟩
        · exact Or.inr ⟨List.mem_cons_of_mem _ h'.1, h'.2⟩
      · rw [if_neg hil] at h
        rcases hitFold_mem_nonneg rest (some l0) j h with h' | h'
        · exact Or.inl h'
        · exact Or.inr ⟨List.mem_cons_of_mem _ h'.1, h'.2⟩

theorem hit_eq_none_iff (xs : List Intersection) :
    hit xs = none ↔ ∀ i ∈ xs, i.t < 0 := by
  rw [hit, hitFold_eq_none_iff]
  simp

theorem hit_spec (xs : List Intersection) (j : Intersection) (h : hit xs = some j) :
    j ∈ xs ∧ 0 ≤ j.t ∧ ∀ i ∈ xs, 0 ≤ i.t → j.t ≤ i.t := by
  rcases hitFold_mem_nonneg xs none j h with h' | h'
  · cases h'
  · exact ⟨h'.1, h'.2, hitFold_min xs none j h⟩

theorem consumingHit_fst_spec (xs : List Intersection) (j : Intersection)
    (h : (consumingHit xs).1 = some j) :
    j ∈ xs ∧ 0 ≤ j.t ∧ ∀ i ∈ xs, 0 ≤ i.t → j.t ≤ i.t := by
  rw [consumingHit] at h
  rcases hitFold_mem_nonneg _ none j h with h' | h'
  · cases h'
  · refine ⟨List.mem_reverse.mp h'.1, h'.2, ?_⟩
    intro i hi hnn
    exact hitFold_min _ none j h i (List.mem_reverse.mpr hi) hnn

theorem consumingHit_fst_eq_none_iff (xs : List Intersection) :
    (consumingHit xs).1 = none ↔ ∀ i ∈ xs, i.t < 0 := by
  rw [consumingHit, hitFold_eq_none_iff]
  simp

/-- C3: for every intersection collection, hit selection (`hit` from
`intersection.rs`) returns an intersection of the collection with the
smallest non-negative `t`, and returns no hit exactly when every `t` is
negative (in particular when the collection is empty); for the t values
{5, 7, -3, 2} it returns the one with `t = 2`. -/
theorem c3_hit_smallest_nonneg :
    (∀ (xs : List Intersection) (j : Intersection), hit xs = some j →
        j ∈ xs ∧ 0 ≤ j.t ∧ ∀ i ∈ xs, 0 ≤ i.t → j.t ≤ i.t) ∧
    (∀ xs : List Intersection, hit xs = none ↔ ∀ i ∈ xs, i.t < 0) ∧
    (∀ s : Shape, hit [⟨5, s⟩, ⟨7, s⟩, ⟨-3, s⟩, ⟨2, s⟩] = some ⟨2, s⟩) ∧
    (∀ s : Shape, hit [⟨-5, s⟩, ⟨-7, s⟩, ⟨-3, s⟩] = none) := by
  refine ⟨hit_spec, hit_eq_none_iff, ?_, ?_⟩
  · intro s
    norm_num [hit, hitFold]
  · intro s
    norm_num [hit, hitFold]

/-- Witness for C3 at the concrete collection {5, 7, -3, 2}. -/
theorem c3_hit_smallest_nonneg_witness :
    hit [⟨5, defaultSphere⟩, ⟨7, defaultSphere⟩, ⟨-3, defaultSphere⟩,
        ⟨2, defaultSphere⟩] = some ⟨2, defaultSphere⟩ ∧
    ((⟨2, defaultSphere⟩ : Intersection) ∈
        ([⟨5, defaultSphere⟩, ⟨7, defaultSphere⟩, ⟨-3, defaultSphere⟩,
          ⟨2, defaultSphere⟩] : List Intersection) ∧
      0 ≤ (⟨2, defaultSphere⟩ : Intersection).t ∧
      ∀ i ∈ ([⟨5, defaultSphere⟩, ⟨7, defaultSphere⟩, ⟨-3, defaultSphere⟩,
          ⟨2, defaultSphere⟩] : List Intersection),
        0 ≤ i.t → (⟨2, defaultSphere⟩ : Intersection).t ≤ i.t) :=
  ⟨by norm_num [hit, hitFold],
    c3_hit_smallest_nonneg.1 _ _ (by norm_num [hit, hitFold])⟩

/-- C8: the destructive and non-destructive hit variants agree on presence
and on the selected `t` (and on the element itself when all `t` values are
distinct), and `consuming_hit` leaves the buffer empty while `hit` takes
the collection immutably. -/
theorem c8_hit_variants_equivalent :
    ∀ xs : List Intersection,
      ((consumingHit xs).1.isSome = (hit xs).isSome) ∧
      (∀ i j, (consumingHit xs).1 = some i → hit xs = some j → i.t = j.t) ∧
      ((consumingHit xs).2 = []) ∧
      (xs.Pairwise (fun a b => a.t ≠ b.t) → (consumingHit xs).1 = hit xs) := by
  intro xs
  have tEq : ∀ i j, (consumingHit xs).1 = some i → hit xs = some j → i.t = j.t := by
    intro i j hi hj
    have si := consumingHit_fst_spec xs i hi
    have sj := hit_spec xs j hj
    exact le_antisymm (si.2.2 j sj.1 sj.2.1) (sj.2.2 i si.1 si.2.1)
  refine ⟨?_, tEq, rfl, ?_⟩
  · cases hc : (consumingHit xs).1 with
    | none =>
      have := (hit_eq_none_iff xs).mpr ((consumingHit_fst_eq_none_iff xs).mp hc)
      rw [this]
    | some i =>
      cases hh : hit xs with
      | none =>
        have := ((consumingHit_fst_eq_none_iff xs).mpr ((hit_eq_none_iff xs).mp hh))
        rw [this] at hc
        cases hc
      | some j => rfl
  · intro hp
    cases hc : (consumingHit xs).1 with
    | none =>
      exact ((hit_eq_none_iff xs).mpr ((consumingHit_fst_eq_none_iff xs).mp hc)).symm
    | some i =>
      cases hh : hit xs with
      | none =>
        have := ((consumingHit_fst_eq_none_iff xs).mpr ((hit_eq_none_iff xs).mp hh))
        rw [this] at hc
        cases hc
      | some j =>
        have si := consumingHit_fst_spec xs i hc
        have sj := hit_spec xs j hh
        have hij : i.t = j.t := tEq i j hc hh
        have : i = j := by
          by_contra hne
          have hsym : Symmetric (fun a b : Intersection => a.t ≠ b.t) :=
            fun a b h e => h (Eq.symm e)
          exact hp.forall hsym si.1 sj.1 hne hij
        rw [this]

/-- Witness for C8 at a concrete collection with a tie-free `t` set. -/
theorem c8_hit_variants_equivalent_witness :
    ((consumingHit [⟨5, defaultSphere⟩, ⟨-3, defaultSphere⟩,
        ⟨2, defaultSphere⟩]).1 = hit [⟨5, defaultSphere⟩, ⟨-3, defaultSphere⟩,
        ⟨2, defaultSphere⟩]) ∧
    ((consumingHit [⟨5, defaultSphere⟩, ⟨-3, defaultSphere⟩,
        ⟨2, defaultSphere⟩]).2 = []) :=
  ⟨(c8_hit_variants_equivalent _).2.2.2 (by norm_num),
    (c8_hit_variants_equivalent _).2.2.1⟩

theorem computeN1N2Go_no_match (self : Intersection) :
    ∀ (xs : List Intersection), (∀ x ∈ xs, intersectionEqB x self = false) →
      ∀ (containers : List Shape) (n1 n2 : Scalar),
        computeN1N2Go self containers n1 n2 xs = (n1, n2)
  | [], _, containers, n1, n2 => rfl
  | x :: rest, h, containers, n1, n2 => by
    have hx : intersectionEqB x self = false := h x (List.mem_cons_self x rest)
    rw [computeN1N2Go]
    simp only [hx, Bool.false_eq_true, if_false]
    exact computeN1N2Go_no_match self rest
      (fun y hy => h y (List.mem_cons_of_mem _ hy)) _ n1 n2

/-- C10: when the chosen intersection never occurs (by `t`-and-object
equality) in the list handed to `prepare_computations` — in particular for
the empty list — `compute_n1_n2` returns `(0.0, 0.0)` rather than the
vacuum default `1.0`, and the resulting `PreparedComputations` carries
those zeros. -/
theorem c10_missing_self_yields_zero :
    (∀ (self : Intersection) (xs : List Intersection),
        (∀ x ∈ xs, intersectionEqB x self = false) →
        computeN1N2 self xs = (0, 0)) ∧
    (∀ self : Intersection, computeN1N2 self [] = (0, 0)) ∧
    (∀ (sqrt : Scalar → Scalar) (self : Intersection) (r : Ray)
        (xs : List Intersection),
        (∀ x ∈ xs, intersectionEqB x self = false) →
        (prepareComputations sqrt self r xs).n1 = 0 ∧
          (prepareComputations sqrt self r xs).n2 = 0) := by
  have base : ∀ (self : Intersection) (xs : List Intersection),
      (∀ x ∈ xs, intersectionEqB x self = false) → computeN1N2 self xs = (0, 0) :=
    fun self xs h => computeN1N2Go_no_match self xs h [] 0 0
  refine ⟨base, fun self => rfl, ?_⟩
  intro sqrt self r xs h
  have hz := base self xs h
  constructor
  · simp [prepareComputations, hz]
  · simp [prepareComputations, hz]

/-- Witness for C10: a chosen intersection absent from the list. -/
theorem c10_missing_self_yields_zero_witness :
    (∀ x ∈ ([⟨2, defaultSphere⟩] : List Intersection),
        intersectionEqB x ⟨1, defaultSphere⟩ = false) ∧
    computeN1N2 ⟨1, defaultSphere⟩ [⟨2, defaultSphere⟩] = (0, 0) :=
  ⟨by simp; with_unfolding_all rfl,
    c10_missing_self_yields_zero.1 _ _ (by simp; with_unfolding_all rfl)⟩

/-- The stack top read of the specification's refraction walk: the
refractive index of the innermost containing shape, `1.0` for vacuum. -/
def specStackTopIndex (stack : List Shape) : Scalar :=
  match stack.getLast? with
  | some s => s.material.refractiveIndex
  | none => 1

/-- The toggle step of the specification's refraction walk: crossing a
surface of an object removes it from the container stack when present and
appends it otherwise. -/
def specToggle (stack : List Shape) (obj : Shape) : List Shape :=
  if stack.any (fun c => shapeEqB c obj) then stack.filter (fun c => !(shapeEqB c obj))
  else stack ++ [obj]

/-- The `(n1, n2)` rule as worded in the specification: walk the sorted
list in order with a container stack; at the chosen intersection read `n1`
from the stack top (`1.0` if empty) before toggling the membership of the
current intersection's object, read `n2` from the new stack top (`1.0` if
empty) after toggling, and stop there.  `none` when the walk never reaches
the chosen intersection. -/
def specRefractionWalk (self : Intersection) :
    List Shape → List Intersection → Option (Scalar × Scalar)
  | _, [] => none
  | stack, x :: rest =>
    if intersectionEqB x self then
      some (specStackTopIndex stack, specStackTopIndex (specToggle stack x.object))
    else specRefractionWalk self (specToggle stack x.object) rest

theorem specRefractionWalk_refines (self : Intersection) :
    ∀ (xs : List Intersection) (stack : List Shape) (n1 n2 : Scalar) (p : Scalar × Scalar),
      specRefractionWalk self stack xs = some p →
      computeN1N2Go self stack n1 n2 xs = p
  | [], stack, n1, n2, p => by
    intro h
    cases h
  | x :: rest, stack, n1, n2, p => by
    intro h
    rw [specRefractionWalk] at h
    rw [computeN1N2Go]
    by_cases hx : intersectionEqB x self
    · simp only [hx, if_true] at h ⊢
      cases h
      rfl
    · simp only [hx, Bool.false_eq_true, if_false] at h ⊢
      exact specRefractionWalk_refines self rest _ _ n2 p h

/-- C1: `compute_n1_n2` implements the container-stack walk of the
specification (read `n1` before the toggle, `n2` after, stop at the chosen
intersection), `prepare_computations` stores its result, and on the six
sorted intersections of the three nested glass spheres it yields the pairs
(1.0,1.5), (1.5,2.0), (2.0,2.5), (2.5,2.5), (2.5,1.5), (1.5,1.0). -/
theorem c1_refraction_stack :
    (∀ (self : Intersection) (xs : List Intersection) (p : Scalar × Scalar),
        specRefractionWalk self [] xs = some p → computeN1N2 self xs = p) ∧
    (∀ (sqrt : Scalar → Scalar) (self : Intersection) (r : Ray)
        (xs : List Intersection),
        ((prepareComputations sqrt self r xs).n1,
          (prepareComputations sqrt self r xs).n2) = computeN1N2 self xs) ∧
    computeN1N2 ⟨2, glassSphereA⟩ refractionXs = (1, 3/2) ∧
    computeN1N2 ⟨11/4, glassSphereB⟩ refractionXs = (3/2, 2) ∧
    computeN1N2 ⟨13/4, glassSphereC⟩ refractionXs = (2, 5/2) ∧
    computeN1N2 ⟨19/4, glassSphereB⟩ refractionXs = (5/2, 5/2) ∧
    computeN1N2 ⟨21/4, glassSphereC⟩ refractionXs = (5/2, 3/2) ∧
    computeN1N2 ⟨6, glassSphereA⟩ refractionXs = (3/2, 1) := by
  refine ⟨fun self xs p h => specRefractionWalk_refines self xs [] 0 0 p h,
    fun sqrt self r xs => by simp [prepareComputations], ?_, ?_, ?_, ?_, ?_, ?_⟩
  all_goals with_unfolding_all rfl

/-- Witness for C1: the specification walk on the nested-spheres list. -/
theorem c1_refraction_stack_witness :
    specRefractionWalk ⟨2, glassSphereA⟩ [] refractionXs = some (1, 3/2) ∧
    computeN1N2 ⟨2, glassSphereA⟩ refractionXs = (1, 3/2) :=
  ⟨by with_unfolding_all rfl,
    c1_refraction_stack.1 _ _ _ (by with_unfolding_all rfl)⟩

/-- C7: the unit sphere's local intersection rule appends nothing when the
quadratic discriminant is negative and appends exactly the two quadratic
roots otherwise (negative roots included); a ray from (0,0,-5) along
(0,0,1) yields t = 4 and t = 6, and a ray from the origin yields t = -1
and t = 1. -/
theorem c7_sphere_local_intersect :
    (∀ (sqrt : Scalar → Scalar) (tm itm : Mat4) (mat : Material) (r : Ray)
        (xs : List Intersection),
        (sphereDiscriminant r < 0 →
          sphereLocalIntersect sqrt (.sphere tm itm mat) r xs = xs) ∧
        (0 ≤ sphereDiscriminant r →
          sphereLocalIntersect sqrt (.sphere tm itm mat) r xs =
            xs ++
              [⟨(-sphereCoeffB r - sqrt (sphereDiscriminant r)) / (2 * sphereCoeffA r),
                  .sphere tm itm mat⟩,
                ⟨(-sphereCoeffB r + sqrt (sphereDiscriminant r)) / (2 * sphereCoeffA r),
                  .sphere tm itm mat⟩])) ∧
    sphereLocalIntersect sqrtEx defaultSphere ⟨⟨0, 0, -5⟩, ⟨0, 0, 1⟩⟩ [] =
      [⟨4, defaultSphere⟩, ⟨6, defaultSphere⟩] ∧
    sphereLocalIntersect sqrtEx defaultSphere ⟨⟨0, 0, 0⟩, ⟨0, 0, 1⟩⟩ [] =
      [⟨-1, defaultSphere⟩, ⟨1, defaultSphere⟩] := by
  refine ⟨?_, ?_, ?_⟩
  · intro sqrt tm itm mat r xs
    constructor
    · intro hdisc
      rw [sphereLocalIntersect, if_pos hdisc]
    · intro hdisc
      rw [sphereLocalIntersect, if_neg (not_lt.mpr hdisc)]
  · norm_num [sphereLocalIntersect, sphereDiscriminant, sphereCoeffA, sphereCoeffB,
      sphereCoeffC, sphereToRay, Vec3.dot, sqrtEx]
  · norm_num [sphereLocalIntersect, sphereDiscriminant, sphereCoeffA, sphereCoeffB,
      sphereCoeffC, sphereToRay, Vec3.dot, sqrtEx]

/-- Witness for C7: the ray from (0,0,-5), whose discriminant is 4. -/
theorem c7_sphere_local_intersect_witness :
    0 ≤ sphereDiscriminant ⟨⟨0, 0, -5⟩, ⟨0, 0, 1⟩⟩ ∧
    sphereLocalIntersect sqrtEx defaultSphere ⟨⟨0, 0, -5⟩, ⟨0, 0, 1⟩⟩ [] =
      [] ++
        [⟨(-sphereCoeffB ⟨⟨0, 0, -5⟩, ⟨0, 0, 1⟩⟩ -
              sqrtEx (sphereDiscriminant ⟨⟨0, 0, -5⟩, ⟨0, 0, 1⟩⟩)) /
            (2 * sphereCoeffA ⟨⟨0, 0, -5⟩, ⟨0, 0, 1⟩⟩), defaultSphere⟩,
          ⟨(-sphereCoeffB ⟨⟨0, 0, -5⟩, ⟨0, 0, 1⟩⟩ +
              sqrtEx (sphereDiscriminant ⟨⟨0, 0, -5⟩, ⟨0, 0, 1⟩⟩)) /
            (2 * sphereCoeffA ⟨⟨0, 0, -5⟩, ⟨0, 0, 1⟩⟩), defaultSphere⟩] :=
  ⟨by norm_num [sphereDiscriminant, sphereCoeffA, sphereCoeffB, sphereCoeffC,
      sphereToRay, Vec3.dot],
    ((c7_sphere_local_intersect.1 sqrtEx IDENTITY_MATRIX_4 IDENTITY_MATRIX_4
        Material.default ⟨⟨0, 0, -5⟩, ⟨0, 0, 1⟩⟩ []).2
      (by norm_num [sphereDiscriminant, sphereCoeffA, sphereCoeffB, sphereCoeffC,
        sphereToRay, Vec3.dot]))⟩

theorem inShadow_fst_eq (sqrt : Scalar → Scalar) (w : World) (light : PointLight)
    (p : Pt3) (buf : List Intersection) :
    (inShadow sqrt w light p buf).1 =
      match (consumingHit (worldIntersect sqrt w
          ⟨p, (light.position - p).normalized sqrt⟩ buf)).1 with
      | some i => decide (i.t < (light.position - p).magnitude sqrt)
      | none => false := rfl

theorem inShadow_snd_eq (sqrt : Scalar → Scalar) (w : World) (light : PointLight)
    (p : Pt3) (buf : List Intersection) :
    (inShadow sqrt w light p buf).2 = [] := rfl

/-- C5: the shadow test casts a ray from the point toward the light
(direction normalised, distance the magnitude of `light.position - point`),
intersects it against the whole world, and reports shadow exactly when some
non-negative-`t` intersection lies strictly closer than the light — i.e.
when the nearest non-negative hit satisfies `t < distance`; no hit or a hit
at or beyond the light means no shadow.  The call consumes its working
buffer. -/
theorem c5_shadow_test :
    ∀ (sqrt : Scalar → Scalar) (w : World) (light : PointLight) (p : Pt3)
        (buf : List Intersection),
      ((inShadow sqrt w light p buf).1 = true ↔
        ∃ i ∈ worldIntersect sqrt w
            ⟨p, (light.position - p).normalized sqrt⟩ buf,
          0 ≤ i.t ∧ i.t < (light.position - p).magnitude sqrt) ∧
      (inShadow sqrt w light p buf).2 = [] := by
  intro sqrt w light p buf
  refine ⟨?_, rfl⟩
  rw [inShadow_fst_eq]
  cases hch : (consumingHit (worldIntersect sqrt w
      ⟨p, (light.position - p).normalized sqrt⟩ buf)).1 with
  | none =>
    simp only [Bool.false_eq_true, false_iff]
    rintro ⟨i, hi, hnn, -⟩
    have hneg := (consumingHit_fst_eq_none_iff _).mp hch i hi
    exact absurd hnn (not_le.mpr hneg)
  | some j =>
    have sj := consumingHit_fst_spec _ j hch
    simp only [decide_eq_true_eq]
    constructor
    · intro hlt
      exact ⟨j, sj.1, sj.2.1, hlt⟩
    · rintro ⟨i, hi, hnn, hlt⟩
      exact lt_of_le_of_lt (sj.2.2 i hi hnn) hlt

/-- Witness for C5: the test-world shadow scene — a point behind the unit
sphere relative to a light in front of it is in shadow. -/
theorem c5_shadow_test_witness :
    ((inShadow sqrtEx ⟨[defaultSphere], []⟩ ⟨⟨0, 0, -5⟩, ⟨1, 1, 1⟩⟩ ⟨0, 0, 5⟩ []).1 = true ↔
      ∃ i ∈ worldIntersect sqrtEx ⟨[defaultSphere], []⟩
          ⟨⟨0, 0, 5⟩, ((⟨0, 0, -5⟩ : Pt3) - (⟨0, 0, 5⟩ : Pt3)).normalized sqrtEx⟩ [],
        0 ≤ i.t ∧
          i.t < ((⟨0, 0, -5⟩ : Pt3) - (⟨0, 0, 5⟩ : Pt3)).magnitude sqrtEx) ∧
    (inShadow sqrtEx ⟨[defaultSphere], []⟩ ⟨⟨0, 0, -5⟩, ⟨1, 1, 1⟩⟩ ⟨0, 0, 5⟩ []).2 = [] :=
  c5_shadow_test sqrtEx ⟨[defaultSphere], []⟩ ⟨⟨0, 0, -5⟩, ⟨1, 1, 1⟩⟩ ⟨0, 0, 5⟩ []

theorem colorAt_of_hit_none (sqrt : Scalar → Scalar) (w : World) (r : Ray)
    (buf : List Intersection) (n : Nat)
    (h : hit (worldIntersect sqrt w r buf) = none) :
    colorAt sqrt w r buf n = (BLACK, worldIntersect sqrt w r buf) := by
  rw [colorAt_eq_T, colorAtT]
  rw [h]

theorem colorAt_of_hit_some (sqrt : Scalar → Scalar) (w : World) (r : Ray)
    (buf : List Intersection) (n : Nat) (j : Intersection)
    (h : hit (worldIntersect sqrt w r buf) = some j) :
    colorAt sqrt w r buf n =
      shadeHit sqrt w (prepareComputations sqrt j r (worldIntersect sqrt w r buf))
        [] n := by
  rw [colorAt_eq_T, colorAtT]
  rw [h]
  rfl

theorem shadeHit_eq (sqrt : Scalar → Scalar) (w : World)
    (comps : PreparedComputations) (buf : List Intersection) (n : Nat) :
    shadeHit sqrt w comps buf n =
      ((surfaceLoop sqrt w comps w.lights true BLACK buf).1 +
          reflectedColorAt sqrt w comps n + refractedColorAt sqrt w comps n,
        (surfaceLoop sqrt w comps w.lights true BLACK buf).2) := rfl

theorem surfaceLoop_snd_nil (sqrt : Scalar → Scalar) (w : World)
    (comps : PreparedComputations) :
    ∀ (lights : List PointLight) (ambient : Bool) (surface : Color),
      (surfaceLoop sqrt w comps lights ambient surface []).2 = []
  | [], _, _ => rfl
  | _ :: rest, ambient, surface => by
    rw [surfaceLoop]
    exact surfaceLoop_snd_nil sqrt w comps rest false _

/-- C9 counterexample: one default sphere, a ray starting at `(0,0,5)`
looking along `+z` — both intersections have negative `t`, so `color_at`
takes the no-hit path and leaves the buffer holding this query's two
intersections instead of clearing it. -/
theorem c9_stale_buffer_counterexample :
    (colorAt sqrtEx ⟨[defaultSphere], []⟩ ⟨⟨0, 0, 5⟩, ⟨0, 0, 1⟩⟩ [] 0).2 ≠ [] := by
  have hlen : (worldIntersect sqrtEx ⟨[defaultSphere], []⟩
      ⟨⟨0, 0, 5⟩, ⟨0, 0, 1⟩⟩ []).length = 2 := by
    with_unfolding_all rfl
  have hnone : hit (worldIntersect sqrtEx ⟨[defaultSphere], []⟩
      ⟨⟨0, 0, 5⟩, ⟨0, 0, 1⟩⟩ []) = none := by
    with_unfolding_all rfl
  rw [colorAt_of_hit_none sqrtEx _ _ _ 0 hnone]
  dsimp only
  intro h
  rw [h] at hlen
  cases hlen

/-- C9 amended: `color_at` leaves the intersection buffer empty on the hit
path (it is cleared before `shade_hit`, and every shadow test consumes it
again), but on the no-hit path the buffer is NOT cleared: it retains the
sorted intersections of this query. -/
theorem c9_buffer_state_amended :
    ∀ (sqrt : Scalar → Scalar) (w : World) (r : Ray) (buf : List Intersection)
        (n : Nat),
      (∀ j, hit (worldIntersect sqrt w r buf) = some j →
        (colorAt sqrt w r buf n).2 = []) ∧
      (hit (worldIntersect sqrt w r buf) = none →
        (colorAt sqrt w r buf n).2 = worldIntersect sqrt w r buf) := by
  intro sqrt w r buf n
  constructor
  · intro j hj
    rw [colorAt_of_hit_some sqrt w r buf n j hj, shadeHit_eq]
    exact surfaceLoop_snd_nil sqrt w _ w.lights true BLACK
  · intro hnone
    rw [colorAt_of_hit_none sqrt w r buf n hnone]

/-- Witness for C9 (amended): a hit on the default sphere leaves the buffer
empty. -/
theorem c9_buffer_state_amended_witness :
    hit (worldIntersect sqrtEx ⟨[defaultSphere], []⟩ ⟨⟨0, 0, -5⟩, ⟨0, 0, 1⟩⟩ []) =
      some ⟨4, defaultSphere⟩ ∧
    (colorAt sqrtEx ⟨[defaultSphere], []⟩ ⟨⟨0, 0, -5⟩, ⟨0, 0, 1⟩⟩ [] 0).2 = [] :=
  ⟨by with_unfolding_all rfl,
    (c9_buffer_state_amended sqrtEx ⟨[defaultSphere], []⟩ ⟨⟨0, 0, -5⟩, ⟨0, 0, 1⟩⟩ [] 0).1
      ⟨4, defaultSphere⟩ (by with_unfolding_all rfl)⟩

theorem Color.black_add (c : Color) : BLACK + c = c := by
  simp [BLACK]

theorem Color.add_black (c : Color) : c + BLACK = c := by
  simp [BLACK]

theorem Color.addAssoc (a b c : Color) : a + b + c = a + (b + c) := by
  simp [add_assoc]

/-- Sum of a list of colors, `BLACK` for the empty list. -/
def colorSum : List Color → Color
  | [] => BLACK
  | c :: cs => c + colorSum cs

theorem surfaceLoop_false_spec (sqrt : Scalar → Scalar) (w : World)
    (comps : PreparedComputations) :
    ∀ (ls : List PointLight) (surface : Color),
      (surfaceLoop sqrt w comps ls false surface []).1 =
        surface + colorSum (ls.map fun l =>
          renderAt sqrt comps.object comps l
            (inShadow sqrt w l comps.overPoint []).1 false)
  | [], surface => by
    simp only [surfaceLoop, List.map_nil, colorSum]
    exact (Color.add_black surface).symm
  | l :: ls, surface => by
    rw [surfaceLoop]
    rw [inShadow_snd_eq]
    rw [surfaceLoop_false_spec sqrt w comps ls]
    simp only [List.map_cons, colorSum]
    exact Color.addAssoc _ _ _

theorem surfaceLoop_true_spec (sqrt : Scalar → Scalar) (w : World)
    (comps : PreparedComputations) (l0 : PointLight) (ls : List PointLight)
    (surface : Color) (buf : List Intersection) :
    (surfaceLoop sqrt w comps (l0 :: ls) true surface buf).1 =
      surface +
        (renderAt sqrt comps.object comps l0
            (inShadow sqrt w l0 comps.overPoint buf).1 true +
          colorSum (ls.map fun l =>
            renderAt sqrt comps.object comps l
              (inShadow sqrt w l comps.overPoint []).1 false)) := by
  rw [surfaceLoop]
  rw [inShadow_snd_eq]
  rw [surfaceLoop_false_spec sqrt w comps ls]
  exact Color.addAssoc _ _ _

/-- C4: `shade_hit` sums one Phong contribution per light, where only the
first light evaluated carries the ambient term (all later lights are
evaluated with the ambient flag cleared), and a shadowed light contributes
only its ambient term (`BLACK` when the ambient flag is cleared) — diffuse
and specular are suppressed entirely. -/
theorem c4_shade_hit_ambient_policy :
    (∀ (sqrt : Scalar → Scalar) (w : World) (comps : PreparedComputations)
        (buf : List Intersection) (n : Nat),
      (shadeHit sqrt w comps buf n).1 =
        (match w.lights with
          | [] => BLACK
          | l0 :: ls =>
            renderAt sqrt comps.object comps l0
                (inShadow sqrt w l0 comps.overPoint buf).1 true +
              colorSum (ls.map fun l =>
                renderAt sqrt comps.object comps l
                  (inShadow sqrt w l comps.overPoint []).1 false)) +
          reflectedColorAt sqrt w comps n + refractedColorAt sqrt w comps n) ∧
    (∀ (sqrt : Scalar → Scalar) (m : Material) (light : PointLight)
        (object : Shape) (point : Pt3) (eyev normalv : Vec3),
      lighting sqrt m light object point eyev normalv true true =
        materialColorAt m object point * light.intensity * m.ambient) ∧
    (∀ (sqrt : Scalar → Scalar) (m : Material) (light : PointLight)
        (object : Shape) (point : Pt3) (eyev normalv : Vec3),
      lighting sqrt m light object point eyev normalv true false = BLACK) := by
  refine ⟨?_, fun _ _ _ _ _ _ _ => rfl, fun _ _ _ _ _ _ _ => rfl⟩
  intro sqrt w comps buf n
  rw [shadeHit_eq]
  dsimp only
  cases hl : w.lights with
  | nil => rfl
  | cons l0 ls =>
    rw [surfaceLoop_true_spec, Color.black_add]

/-- Witness-style instance for C4 on a one-light world: the first light is
evaluated with the ambient flag set. -/
theorem c4_shade_hit_ambient_policy_witness :
    ∀ (comps : PreparedComputations) (n : Nat),
      (shadeHit sqrtEx twoPlanesWorld comps [] n).1 =
        renderAt sqrtEx comps.object comps ⟨⟨0, 0, 0⟩, ⟨1, 1, 1⟩⟩
            (inShadow sqrtEx twoPlanesWorld ⟨⟨0, 0, 0⟩, ⟨1, 1, 1⟩⟩
              comps.overPoint []).1 true +
          reflectedColorAt sqrtEx twoPlanesWorld comps n +
          refractedColorAt sqrtEx twoPlanesWorld comps n := by
  intro comps n
  have h := (c4_shade_hit_ambient_policy.1 sqrtEx twoPlanesWorld comps [] n)
  rw [h]
  dsimp only [twoPlanesWorld, List.map, colorSum]
  rw [Color.add_black]

/-- C6: `refracted_color_at` returns black exactly on its three
short-circuits — budget 0, transparency exactly zero, and total internal
reflection (`sin²t = (n1/n2)² (1 - (eye⬝normal)²) > 1`) — and in every
other case returns the recursively computed color of the ray cast from
`under_point` along the Snell direction, scaled by the transparency. -/
theorem c6_refracted_color_cases :
    ∀ (sqrt : Scalar → Scalar) (w : World) (comps : PreparedComputations),
      (refractedColorAt sqrt w comps 0 = BLACK) ∧
      (∀ n : Nat, comps.object.material.transparency = 0 →
        refractedColorAt sqrt w comps n = BLACK) ∧
      (∀ m : Nat, comps.object.material.transparency ≠ 0 →
        1 < (comps.n1 / comps.n2) ^ 2 * (1 - (comps.eyev.dot comps.normalv) ^ 2) →
        refractedColorAt sqrt w comps (m + 1) = BLACK) ∧
      (∀ m : Nat, comps.object.material.transparency ≠ 0 →
        (comps.n1 / comps.n2) ^ 2 * (1 - (comps.eyev.dot comps.normalv) ^ 2) ≤ 1 →
        refractedColorAt sqrt w comps (m + 1) =
          (colorAt sqrt w
              ⟨comps.underPoint,
                comps.normalv *
                    (comps.n1 / comps.n2 * (comps.eyev.dot comps.normalv) -
                      sqrt (1 - (comps.n1 / comps.n2) ^ 2 *
                        (1 - (comps.eyev.dot comps.normalv) ^ 2))) -
                  comps.eyev * (comps.n1 / comps.n2)⟩
              [] m).1 *
            comps.object.material.transparency) := by
  intro sqrt w comps
  refine ⟨rfl, ?_, ?_, ?_⟩
  · intro n h
    cases n with
    | zero => rfl
    | succ m =>
      rw [refractedColorAt, refractedColorAtT]
      dsimp only
      rw [if_pos h]
  · intro m h1 h2
    rw [refractedColorAt, refractedColorAtT]
    dsimp only
    rw [if_neg h1, if_pos h2]
  · intro m h1 h2
    rw [refractedColorAt, refractedColorAtT]
    dsimp only
    rw [if_neg h1, if_neg (not_lt.mpr h2)]
    rfl

/-- A concrete `PreparedComputations` value: head-on hit on the outer glass
sphere, both media vacuum-equivalent. -/
def compsEx : PreparedComputations :=
  ⟨1, glassSphereA, ⟨0, 0, 0⟩, ⟨0, 0, 0⟩, ⟨0, 0, 0⟩, ⟨0, 0, -1⟩, ⟨0, 0, -1⟩,
    false, ⟨0, 0, 1⟩, 1, 1⟩

/-- Witness for C6: a transparent material, no total internal reflection;
the refracted color is the recursive color scaled by the transparency. -/
theorem c6_refracted_color_cases_witness :
    compsEx.object.material.transparency ≠ 0 ∧
    (compsEx.n1 / compsEx.n2) ^ 2 * (1 - (compsEx.eyev.dot compsEx.normalv) ^ 2) ≤ 1 ∧
    refractedColorAt sqrtEx twoPlanesWorld compsEx 1 =
      (colorAt sqrtEx twoPlanesWorld
          ⟨compsEx.underPoint,
            compsEx.normalv *
                (compsEx.n1 / compsEx.n2 * (compsEx.eyev.dot compsEx.normalv) -
                  sqrtEx (1 - (compsEx.n1 / compsEx.n2) ^ 2 *
                    (1 - (compsEx.eyev.dot compsEx.normalv) ^ 2))) -
              compsEx.eyev * (compsEx.n1 / compsEx.n2)⟩
          [] 0).1 *
        compsEx.object.material.transparency :=
  ⟨by with_unfolding_all decide, by with_unfolding_all decide,
    (c6_refracted_color_cases sqrtEx twoPlanesWorld compsEx).2.2.2 0
      (by with_unfolding_all decide) (by with_unfolding_all decide)⟩

theorem reflectedColorAtGo_correct (sqrt : Scalar → Scalar) (w : World)
    (recur : Ray → Nat → Option (Color × List Intersection))
    (comps : PreparedComputations) (n : Nat)
    (hrec : ∀ (r : Ray) (m : Nat), m + 1 = n →
      recur r m = some (colorAt sqrt w r [] m)) :
    reflectedColorAtGo recur comps n = some (reflectedColorAt sqrt w comps n) := by
  cases n with
  | zero => rfl
  | succ m =>
    rw [reflectedColorAtGo, reflectedColorAt, reflectedColorAtT]
    by_cases hz : eEquals comps.object.material.reflective 0 = true
    · rw [if_pos hz, if_pos hz]
    · rw [if_neg hz, if_neg hz, hrec _ m rfl]
      rfl

theorem refractedColorAtGo_correct (sqrt : Scalar → Scalar) (w : World)
    (recur : Ray → Nat → Option (Color × List Intersection))
    (comps : PreparedComputations) (n : Nat)
    (hrec : ∀ (r : Ray) (m : Nat), m + 1 = n →
      recur r m = some (colorAt sqrt w r [] m)) :
    refractedColorAtGo sqrt recur comps n =
      some (refractedColorAt sqrt w comps n) := by
  cases n with
  | zero => rfl
  | succ m =>
    rw [refractedColorAtGo, refractedColorAt, refractedColorAtT]
    dsimp only
    by_cases hz : comps.object.material.transparency = 0
    · rw [if_pos hz, if_pos hz]
    · rw [if_neg hz, if_neg hz]
      by_cases htir :
          1 < (comps.n1 / comps.n2) ^ 2 * (1 - comps.eyev.dot comps.normalv ^ 2)
      · rw [if_pos htir, if_pos htir]
      · rw [if_neg htir, if_neg htir, hrec _ m rfl]
        rfl

theorem shadeHitGo_correct (sqrt : Scalar → Scalar) (w : World)
    (recur : Ray → Nat → Option (Color × List Intersection))
    (comps : PreparedComputations) (buf : List Intersection) (n : Nat)
    (hrec : ∀ (r : Ray) (m : Nat), m + 1 = n →
      recur r m = some (colorAt sqrt w r [] m)) :
    shadeHitGo sqrt w recur comps buf n = some (shadeHit sqrt w comps buf n) := by
  rw [shadeHitGo, reflectedColorAtGo_correct sqrt w recur comps n hrec,
    refractedColorAtGo_correct sqrt w recur comps n hrec, shadeHit_eq]

theorem colorAtGo_correct (sqrt : Scalar → Scalar) (w : World)
    (recur : Ray → Nat → Option (Color × List Intersection))
    (r : Ray) (buf : List Intersection) (n : Nat)
    (hrec : ∀ (r : Ray) (m : Nat), m + 1 = n →
      recur r m = some (colorAt sqrt w r [] m)) :
    colorAtGo sqrt w recur r buf n = some (colorAt sqrt w r buf n) := by
  rw [colorAtGo]
  cases hh : hit (worldIntersect sqrt w r buf) with
  | none => rw [colorAt_of_hit_none sqrt w r buf n hh]
  | some j =>
    dsimp only
    rw [shadeHitGo_correct sqrt w recur _ [] n hrec,
      colorAt_of_hit_some sqrt w r buf n j hh]

theorem gasAdequate (sqrt : Scalar → Scalar) (w : World) :
    ∀ (n g : Nat), n < g → ∀ (r : Ray) (buf : List Intersection),
      colorAtG sqrt w g r buf n = some (colorAt sqrt w r buf n)
  | 0, g + 1, _, r, buf => by
    rw [colorAtG]
    exact colorAtGo_correct sqrt w _ r buf 0 (fun _ m hm => by cases hm)
  | n + 1, g + 1, h, r, buf => by
    rw [colorAtG]
    refine colorAtGo_correct sqrt w _ r buf (n + 1) ?_
    intro r' m hm
    have hmn : m = n := by omega
    subst hmn
    exact gasAdequate sqrt w m g (by omega) r' []

/-- C2: with any recursion budget `n`, the mutual recursion of
`World::color_at` never nests `color_at` activations deeper than the
budget: with any gas bound `g > n` on the bounce depth, the
gas-instrumented pipeline finishes (returns `some`) with exactly the value
of the bounded recursion, for every world and ray — including the two
mutually reflective infinite planes; and both recursive branches return
immediately (black) when the budget is 0. -/
theorem c2_color_at_terminates :
    (∀ (sqrt : Scalar → Scalar) (w : World) (r : Ray) (buf : List Intersection)
        (n g : Nat), n < g →
      colorAtG sqrt w g r buf n = some (colorAt sqrt w r buf n)) ∧
    (∀ (sqrt : Scalar → Scalar) (w : World) (comps : PreparedComputations),
      reflectedColorAt sqrt w comps 0 = ⟨0, 0, 0⟩ ∧
      refractedColorAt sqrt w comps 0 = BLACK) := by
  constructor
  · intro sqrt w r buf n g hng
    exact gasAdequate sqrt w n g hng r buf
  · intro sqrt w comps
    exact ⟨rfl, rfl⟩

/-- Witness for C2: the two mutually reflective planes with a ray bouncing
between them, budget 10, finish within gas 11. -/
theorem c2_color_at_terminates_witness :
    colorAtG sqrtEx twoPlanesWorld 11 ⟨⟨0, 0, 0⟩, ⟨0, 1, 0⟩⟩ [] 10 =
      some (colorAt sqrtEx twoPlanesWorld ⟨⟨0, 0, 0⟩, ⟨0, 1, 0⟩⟩ [] 10) :=
  c2_color_at_terminates.1 sqrtEx twoPlanesWorld ⟨⟨0, 0, 0⟩, ⟨0, 1, 0⟩⟩ [] 10 11
    (by decide)

end Raytracer
